import Mathlib

/-!
Shallow embedding of the DaylightStation piano recorder core:
`midi_message_converter.py`, `auto_midi_recorder.py`, `midi_ws_broadcaster.py`.

Wall-clock instants and durations are modelled as rationals (Python floats
restricted to the exact values the proofs touch); `time.time()` results are
passed in as explicit parameters.  The filesystem is modelled as the list of
currently existing paths.
-/

namespace MidiConverter

/-- `MIN_SESSION_DURATION_SECONDS = 30` from midi_message_converter.py. -/
def MIN_SESSION_DURATION_SECONDS : ℚ := 30

/-- `NOTE_NAMES` from midi_message_converter.py (the twelve semitone names,
split here purely for layout). -/
def NOTE_NAMES : List String :=
  ["C", "C#", "D", "D#", "E", "F"] ++ ["F#", "G", "G#", "A", "A#", "B"]

/-- `midi_note_to_name(note)`: guard `0 <= note <= 127`, otherwise the
fallback string `Note{note}`.  Python's `note % 12` and `note // 12` on a
non-negative `note` agree with `Int.emod` / `Int.ediv`. -/
def midi_note_to_name (note : ℤ) : String :=
  if 0 ≤ note ∧ note ≤ 127 then
    let octave : ℤ := note.ediv 12 - 1
    (NOTE_NAMES.getD (note.emod 12).toNat "") ++ toString octave
  else
    "Note" ++ toString note

/-- Python's `int(x)` truncates toward zero; on the non-negative rationals the
recorder feeds it, this is the floor. -/
def pyIntOfNonneg (x : ℚ) : ℤ := ⌊x⌋

end MidiConverter

namespace MidiConverter

/-- Last index of `c` in `cs` (Python `str.rfind`), `-1` when absent. -/
def rfindFrom (c : Char) : List Char → ℕ → ℤ
  | [], _ => -1
  | x :: xs, i =>
      let rest := rfindFrom c xs (i + 1)
      if 0 ≤ rest then rest else if x = c then (i : ℤ) else -1

/-- Python `p.rfind(c)`. -/
def rfind (p : String) (c : Char) : ℤ := rfindFrom c p.data 0

/-- The root part of CPython `os.path.splitext(p)`: the extension starts at
the last `.` that lies after the last `/`, provided some character strictly
between them is not a `.` (leading dots of a basename are not extensions). -/
def splitextRoot (p : String) : String :=
  let cs := p.data
  let sepIndex := rfind p '/'
  let dotIndex := rfind p '.'
  if sepIndex < dotIndex ∧
      (List.range cs.length).any
        (fun j => decide (sepIndex < (j : ℤ) ∧ (j : ℤ) < dotIndex ∧ cs.getD j '.' ≠ '.')) then
    String.mk (cs.take dotIndex.toNat)
  else p

/-- `os.path.exists` over the filesystem model (the list of existing paths). -/
def os_path_exists (fs : List String) (p : String) : Bool := fs.contains p

/-- `delete_short_recording(file_path, duration)`: removes the MIDI file, then
the sibling `.mp3`, returning the new filesystem and `deleted_any`.
`os.remove` on an existing path is modelled as succeeding (the `OSError`
log-and-continue branch is not reachable in this error-free filesystem
model). -/
def delete_short_recording (fs : List String) (file_path : String) : List String × Bool :=
  let step1 :=
    if file_path ≠ "" ∧ os_path_exists fs file_path then (fs.erase file_path, true)
    else (fs, false)
  let fs1 := step1.1
  let mp3_path := splitextRoot file_path ++ ".mp3"
  if file_path ≠ "" ∧ os_path_exists fs1 mp3_path then (fs1.erase mp3_path, true)
  else (fs1, step1.2)

/-- Banker's rounding to an integer (documented behaviour of Python `round`
on the exact decimal value; binary-float tie artifacts are not modelled). -/
def round_half_even (q : ℚ) : ℤ :=
  let f := ⌊q⌋
  let r := q - f
  if r < 1 / 2 then f
  else if 1 / 2 < r then f + 1
  else if f % 2 = 0 then f else f + 1

/-- Python `round(q, 2)`. -/
def round2 (q : ℚ) : ℚ := (round_half_even (q * 100) : ℚ) / 100

/-- `data` payload of a session_end envelope. -/
structure SessionEndData where
  event : String
  sessionId : String
  duration : ℚ
  noteCount : ℕ
  filePath : Option String
  deleted : Bool
deriving DecidableEq, Repr

/-- The session_end envelope built by `create_session_end_message`. -/
structure SessionEndMsg where
  topic : String
  source : String
  type : String
  timestamp : String
  sessionId : String
  data : SessionEndData
deriving DecidableEq, Repr

/-- `create_session_end_message(session_id, duration, note_count, file_path)`.
Python's `if duration < MIN_SESSION_DURATION_SECONDS and file_path:` tests
`file_path` for truthiness (non-`None` and non-empty).  Returns the updated
filesystem together with the message. -/
def create_session_end_message (fs : List String) (session_id : String) (duration : ℚ)
    (note_count : ℕ) (file_path : Option String) (ts : String) :
    List String × SessionEndMsg :=
  let step :=
    match file_path with
    | some fp =>
        if duration < MIN_SESSION_DURATION_SECONDS ∧ fp ≠ "" then
          delete_short_recording fs fp
        else (fs, false)
    | none => (fs, false)
  let deleted := step.2
  (step.1,
   { topic := "midi", source := "piano", type := "session", timestamp := ts,
     sessionId := session_id,
     data := { event := "session_end", sessionId := session_id,
               duration := round2 duration, noteCount := note_count,
               filePath := if deleted then none else file_path,
               deleted := deleted } })

/-- The `msg.type` strings the recorder handles (mido message types). -/
inductive MidoType
  | note_on
  | note_off
  | control_change
  | pitchwheel
  | program_change
deriving DecidableEq, Repr

/-- A mido message as the converter reads it: only the fields accessed by
`midi_message_to_json` (each mido type populates the fields it has; the
others are irrelevant to the functions below). -/
structure MidoMsg where
  type : MidoType
  note : ℤ
  velocity : ℤ
  channel : ℤ
  control : ℤ
  value : ℤ
  pitch : ℤ
  program : ℤ
deriving DecidableEq, Repr

/-- `data` payload of the outbound envelope, one variant per converter branch. -/
inductive MsgData
  | note (event : String) (note : ℤ) (noteName : String) (velocity : ℤ) (channel : ℤ)
  | control_change (control : ℤ) (controlName : String) (value : ℤ) (channel : ℤ)
  | pitchwheel (pitch : ℤ) (channel : ℤ)
  | program_change (program : ℤ) (channel : ℤ)
deriving DecidableEq, Repr

/-- The outbound envelope built by `midi_message_to_json`. -/
structure Envelope where
  topic : String
  source : String
  timestamp : String
  sessionId : Option String
  type : String
  data : MsgData
deriving DecidableEq, Repr

/-- `CONTROL_NAMES.get(control, f"cc{control}")` from `get_control_name`. -/
def get_control_name (control : ℤ) : String :=
  if control = 1 then "modulation"
  else if control = 7 then "volume"
  else if control = 10 then "pan"
  else if control = 11 then "expression"
  else if control = 64 then "sustain"
  else if control = 65 then "portamento"
  else if control = 66 then "sostenuto"
  else if control = 67 then "soft_pedal"
  else if control = 91 then "reverb"
  else if control = 93 then "chorus"
  else "cc" ++ toString control

/-- `midi_message_to_json(msg, session_id)`.  The wall-clock timestamp string
(`get_timestamp()`) is passed in as `ts`. -/
def midi_message_to_json (msg : MidoMsg) (session_id : Option String) (ts : String) :
    Option Envelope :=
  let base_topic := "midi"
  let base_source := "piano"
  match msg.type with
  | .note_on | .note_off =>
      let event := if msg.type = .note_off ∨ msg.velocity = 0 then "note_off" else "note_on"
      some { topic := base_topic, source := base_source, timestamp := ts,
             sessionId := session_id, type := "note",
             data := .note event msg.note (midi_note_to_name msg.note) msg.velocity msg.channel }
  | .control_change =>
      some { topic := base_topic, source := base_source, timestamp := ts,
             sessionId := session_id, type := "control",
             data := .control_change msg.control (get_control_name msg.control)
                       msg.value msg.channel }
  | .pitchwheel =>
      some { topic := base_topic, source := base_source, timestamp := ts,
             sessionId := session_id, type := "control",
             data := .pitchwheel msg.pitch msg.channel }
  | .program_change =>
      some { topic := base_topic, source := base_source, timestamp := ts,
             sessionId := session_id, type := "control",
             data := .program_change msg.program msg.channel }

end MidiConverter

namespace AutoMidiRecorder

open MidiConverter

/-- The delta-time computation of `process_midi_message`: seconds since the
last message, clamped at `0`, converted at `960` ticks per second through
Python `int` (truncation, here floor of a non-negative value), capped at
`65535`.  `none` is the first-message branch (`msg.time = 0`). -/
def computeDeltaTicks (current_time : ℚ) (last_message_time : Option ℚ) : ℤ :=
  match last_message_time with
  | none => 0
  | some lt =>
      let delta_seconds := current_time - lt
      let delta_seconds := if delta_seconds < 0 then 0 else delta_seconds
      let ticks := pyIntOfNonneg (delta_seconds * 960)
      min ticks 65535

/-- The session-relevant mutable state of `AutoMIDIRecorder`.  The session
identity (filename derived from the start instant) is modelled by the start
instant itself; `closed` is the ghost archive of sessions handed to
`_save_current_session`, recording event attribution. -/
structure RecState where
  closed : List (List (MidoMsg × ℤ))
  current_session : Option ℚ
  session_messages : List (MidoMsg × ℤ)
  last_message_time : Option ℚ
  session_start_time : Option ℚ
deriving DecidableEq, Repr

/-- The `__init__` state: no session, no messages, no last-message time. -/
def initRec : RecState :=
  { closed := [], current_session := none, session_messages := [],
    last_message_time := none, session_start_time := none }

/-- `_save_current_session`: returns early when there are no messages or no
session; otherwise persists the ordered message list (archived in `closed`).
File I/O and the session_end broadcast are modelled elsewhere. -/
def save_current_session (s : RecState) : RecState :=
  if s.session_messages.isEmpty ∨ s.current_session.isNone then s
  else { s with closed := s.closed ++ [s.session_messages] }

/-- `start_new_session` (caller holds the session lock): saves a still-open
session, then resets the slot with a fresh id and
`last_message_time = session_start_time = time.time()`. -/
def start_new_session (t : ℚ) (s : RecState) : RecState :=
  let s1 := if s.current_session.isSome then save_current_session s else s
  { s1 with
    current_session := some t, session_messages := [],
    last_message_time := some t, session_start_time := some t }

/-- `_on_silence_timeout` (under the session lock): if a session is open,
save it and clear the slot.  `last_message_time` is left as is (the source
does not clear it). -/
def on_silence_timeout (s : RecState) : RecState :=
  if s.current_session.isSome then
    let s1 := save_current_session s
    { s1 with current_session := none, session_messages := [] }
  else s

/-- `process_midi_message` (under the session lock): open a session if none
exists, compute the delta, append `(msg, delta)` and update
`last_message_time`.  Log append and broadcast are side effects outside this
state. -/
def process_midi_message (t : ℚ) (m : MidoMsg) (s : RecState) : RecState :=
  let s1 := if s.current_session.isNone then start_new_session t s else s
  let delta := computeDeltaTicks t s1.last_message_time
  { s1 with
    session_messages := s1.session_messages ++ [(m, delta)],
    last_message_time := some t }

/-- The silence timer is scheduled for `last_message_time + silence_timeout`
and is cancel-and-restarted on every accepted event, so it fires before an
event at `t` exactly when a session is open and `t - last ≥ timeout`. -/
def timerFires (timeout : ℚ) (s : RecState) (t : ℚ) : Bool :=
  match s.last_message_time with
  | some lt => s.current_session.isSome && decide (timeout ≤ t - lt)
  | none => false

/-- One arrival step of the recorder: a due silence timeout fires first,
then the event is processed. -/
def recorderStep (timeout : ℚ) (s : RecState) (tm : ℚ × MidoMsg) : RecState :=
  let s1 := if timerFires timeout s tm.1 then on_silence_timeout s else s
  process_midi_message tm.1 tm.2 s1

/-- A run of the recorder over a timestamped event list. -/
def runRecorder (timeout : ℚ) (s : RecState) (evs : List (ℚ × MidoMsg)) : RecState :=
  evs.foldl (recorderStep timeout) s

/-- All events the state attributes to some session: archived sessions in
order, then the open session's messages. -/
def allEvents (s : RecState) : List MidoMsg :=
  (s.closed.map (fun sess => sess.map Prod.fst)).flatten ++ s.session_messages.map Prod.fst

/-- A closed slot holds no pending messages (holds in every reachable state). -/
def RecInv (s : RecState) : Prop :=
  s.current_session = none → s.session_messages = []

end AutoMidiRecorder

namespace MidiWsBroadcaster

/-- The state of `MidiWebSocketBroadcaster` relevant to the queue/counter
contracts: configuration, flags, the Delivery Queue (FIFO, front = next out),
and the integer statistics.  The time-valued stats (`last_connected`,
`last_error`, `last_heartbeat`) are omitted; the payload type is abstract. -/
structure WSB (α : Type) where
  max_queue_size : ℕ
  running : Bool
  stop_event : Bool
  connected : Bool
  queue : List α
  messages_sent : ℕ
  messages_dropped : ℕ
  reconnect_count : ℕ
  heartbeats_sent : ℕ
  heartbeats_received : ℕ
deriving DecidableEq, Repr

variable {α : Type}

/-- `queue.Queue(maxsize=n).put_nowait` raises `Full` exactly when `n > 0`
and the queue holds at least `n` items. -/
def queueFull (s : WSB α) : Bool :=
  decide (0 < s.max_queue_size ∧ s.max_queue_size ≤ s.queue.length)

/-- `broadcast(message)`: early `False` when not running; on a full queue,
count the drop and return `False`; otherwise enqueue and return `True`. -/
def broadcast (s : WSB α) (m : α) : WSB α × Bool :=
  if s.running = false then (s, false)
  else if queueFull s then
    ({ s with messages_dropped := s.messages_dropped + 1 }, false)
  else
    ({ s with queue := s.queue ++ [m] }, true)

/-- `stop(flush)`: early return when not running; otherwise clear `_running`,
set the stop event and (after the join) `_connected := False`.  `flush` only
selects the thread-join timeout (2.0s vs 0.5s) and changes no queue or
counter state. -/
def stop (s : WSB α) (flush : Bool) : WSB α :=
  if s.running = false then s
  else { s with running := false, stop_event := true, connected := false }

/-- `_send_queued_messages(ws)`: pops and sends up to 50 messages.  `oracle`
gives each `ws.send`'s outcome (exhausted oracle = success).  On a send
failure the popped message is re-queued at the back (`put_nowait`), counted
as dropped instead if that would overflow, and the exception aborts the
batch (re-raised to trigger reconnection). -/
def sendBatch : WSB α → List Bool → ℕ → WSB α
  | s, _, 0 => s
  | s, oracle, fuel + 1 =>
    match s.queue with
    | [] => s
    | m :: rest =>
      if oracle.headD true then
        sendBatch { s with queue := rest, messages_sent := s.messages_sent + 1 }
          oracle.tail fuel
      else if 0 < s.max_queue_size ∧ s.max_queue_size ≤ rest.length then
        { s with queue := rest, messages_dropped := s.messages_dropped + 1 }
      else
        { s with queue := rest ++ [m] }

/-- Reconnect bookkeeping events of `_async_main`. -/
inductive ConnEvent
  | failure
  | success
deriving DecidableEq, Repr

/-- The reconnect delays waited, driven by `_async_main`: a failure waits the
current `reconnect_delay` then sets it to `min(reconnect_delay * 2,
reconnect_max)`; a successful connect resets it to `reconnect_base`. -/
def runConn (base maxd : ℚ) : ℚ → List ConnEvent → List ℚ
  | _, [] => []
  | d, ConnEvent.failure :: es => d :: runConn base maxd (min (d * 2) maxd) es
  | d, ConnEvent.success :: es => runConn base maxd base es

/-- The heartbeat frame of `_heartbeat_loop`. -/
structure HeartbeatMsg where
  source : String
  topic : String
  type : String
  timestamp : ℚ
deriving DecidableEq, Repr

/-- The frame `_heartbeat_loop` builds from the current time. -/
def heartbeat_msg (now : ℚ) : HeartbeatMsg :=
  { source := "piano", topic := "heartbeat", type := "ping", timestamp := now }

/-- One successful heartbeat iteration: send the ping and count it.  (A
failed `ws.send` breaks the loop without incrementing.) -/
def send_heartbeat (s : WSB α) (now : ℚ) : WSB α × HeartbeatMsg :=
  ({ s with heartbeats_sent := s.heartbeats_sent + 1 }, heartbeat_msg now)

/-- An incoming frame as `_receive_loop` sees it: not JSON
(`json.JSONDecodeError`, caught), JSON but not an object (`data.get` raises
`AttributeError`, which escapes the inner handler), or a JSON object with
its `topic` / `type` members. -/
inductive Incoming
  | notJson
  | jsonNonObject
  | jsonObject (topic : Option String) (type : Option String)
deriving DecidableEq, Repr

/-- Handling of one incoming frame; the Bool says whether the receive loop
continues to the next frame. -/
def receive_one (s : WSB α) (fr : Incoming) : WSB α × Bool :=
  match fr with
  | .notJson => (s, true)
  | .jsonNonObject => (s, false)
  | .jsonObject topic ty =>
      if topic = some "heartbeat" ∧ ty = some "pong" then
        ({ s with heartbeats_received := s.heartbeats_received + 1 }, true)
      else (s, true)

/-- `_receive_loop` over a finite frame sequence: stops at the first frame
whose handling escapes the inner `try`. -/
def receive_loop (s : WSB α) : List Incoming → WSB α
  | [] => s
  | fr :: frs =>
      let r := receive_one s fr
      if r.2 then receive_loop r.1 frs else r.1

/-- Frames shaped as heartbeat pongs. -/
def countPongs (frs : List Incoming) : ℕ :=
  frs.countP fun fr =>
    match fr with
    | .jsonObject topic ty => decide (topic = some "heartbeat" ∧ ty = some "pong")
    | _ => false

/-- Whole-system events touching the Delivery Queue and its counters. -/
inductive Evt (α : Type)
  | bcast (m : α)
  | batch (oracle : List Bool)
  | stopEvt (flush : Bool)

/-- One system step: a producer `broadcast`, a worker drain iteration (only
while running and not stopping, per the `_async_main` loop guard), or
`stop`. -/
def sysStep (s : WSB α) : Evt α → WSB α
  | .bcast m => (broadcast s m).1
  | .batch oracle => if s.running && !s.stop_event then sendBatch s oracle 50 else s
  | .stopEvt f => stop s f

/-- A system run. -/
def runSys (s : WSB α) (evs : List (Evt α)) : WSB α := evs.foldl sysStep s

/-- 1 when the event is a broadcast the queue accepts (returns `True`). -/
def evtAccepted (s : WSB α) : Evt α → ℕ
  | .bcast m => if (broadcast s m).2 then 1 else 0
  | _ => 0

/-- 1 when the event is a broadcast rejected with a drop (running, full). -/
def evtRejected (s : WSB α) : Evt α → ℕ
  | .bcast _ => if s.running && queueFull s then 1 else 0
  | _ => 0

/-- Number of messages accepted by the queue along a run (broadcast calls
that returned `True`). -/
def acceptedCount : WSB α → List (Evt α) → ℕ
  | _, [] => 0
  | s, e :: es => evtAccepted s e + acceptedCount (sysStep s e) es

/-- Number of broadcast calls rejected with a drop (running, queue full). -/
def enqueueRejectedCount : WSB α → List (Evt α) → ℕ
  | _, [] => 0
  | s, e :: es => evtRejected s e + enqueueRejectedCount (sysStep s e) es

/-- The sent/dropped counters can never change again from this state on. -/
def countersFrozen (s : WSB ℕ) : Prop :=
  ∀ evs : List (Evt ℕ), (runSys s evs).messages_sent = s.messages_sent ∧
    (runSys s evs).messages_dropped = s.messages_dropped

/-- A freshly-started broadcaster with the default queue capacity. -/
def init0 : WSB ℕ :=
  { max_queue_size := 1000, running := true, stop_event := false, connected := false,
    queue := [], messages_sent := 0, messages_dropped := 0, reconnect_count := 0,
    heartbeats_sent := 0, heartbeats_received := 0 }

/-- A running broadcaster with 100 messages queued. -/
def queued100 : WSB ℕ := { init0 with queue := List.range 100 }

/-- A one-message run that is stopped before any drain happens. -/
def trace1 : List (Evt ℕ) := [Evt.bcast 0, Evt.stopEvt true]

/-- Frame sequence with a JSON-but-not-object frame followed by a
well-formed pong. -/
def framesEx : List Incoming :=
  [Incoming.jsonNonObject, Incoming.jsonObject (some "heartbeat") (some "pong")]

end MidiWsBroadcaster

namespace MidiConverter

/-- C10: `midi_note_to_name` is total over ℤ and never indexes out of
bounds: for `0 ≤ note ≤ 127` it returns `NOTE_NAMES[note % 12]` (a valid
index) followed by the octave `note // 12 - 1`; outside that range it
returns the fallback `Note{note}` instead of raising. -/
theorem midi_note_to_name_total (note : ℤ) :
    ((0 ≤ note ∧ note ≤ 127) →
      (note.emod 12).toNat < NOTE_NAMES.length ∧
      midi_note_to_name note
        = NOTE_NAMES.getD (note.emod 12).toNat "" ++ toString (note.ediv 12 - 1)) ∧
    (¬(0 ≤ note ∧ note ≤ 127) →
      midi_note_to_name note = "Note" ++ toString note) := by
  constructor
  · intro h
    refine ⟨?_, ?_⟩
    · have h0 : 0 ≤ note.emod 12 := Int.emod_nonneg note (by norm_num)
      have h1 : note.emod 12 < 12 := Int.emod_lt_of_pos note (by norm_num)
      have hlen : NOTE_NAMES.length = 12 := by rfl
      rw [hlen]
      omega
    · simp [midi_note_to_name, h]
  · intro h
    simp [midi_note_to_name, h]

/-- Evaluation of C10 at note 60 (in range) and note 200 (out of range). -/
theorem midi_note_to_name_total_witness :
    (((60 : ℤ).emod 12).toNat < NOTE_NAMES.length ∧
      midi_note_to_name 60
        = NOTE_NAMES.getD ((60 : ℤ).emod 12).toNat "" ++ toString ((60 : ℤ).ediv 12 - 1)) ∧
    midi_note_to_name 200 = "Note" ++ toString (200 : ℤ) :=
  ⟨(midi_note_to_name_total 60).1 (by decide),
   (midi_note_to_name_total 200).2 (by decide)⟩

/-- C9: a `note_on` with velocity 0 converts to a note payload whose event
is `note_off`, preserving note, velocity and channel; a `note_on` with
positive velocity yields event `note_on`. -/
theorem note_on_zero_velocity_is_note_off (msg : MidoMsg) (sid : Option String)
    (ts : String) (hty : msg.type = MidoType.note_on) :
    (msg.velocity = 0 →
      (midi_message_to_json msg sid ts).map Envelope.data
        = some (MsgData.note "note_off" msg.note (midi_note_to_name msg.note)
            msg.velocity msg.channel)) ∧
    (0 < msg.velocity →
      (midi_message_to_json msg sid ts).map Envelope.data
        = some (MsgData.note "note_on" msg.note (midi_note_to_name msg.note)
            msg.velocity msg.channel)) := by
  constructor
  · intro hv
    simp [midi_message_to_json, hty, hv]
  · intro hv
    have hv0 : msg.velocity ≠ 0 := ne_of_gt hv
    simp [midi_message_to_json, hty, hv0]

/-- Evaluation of C9 at a velocity-0 and a velocity-100 note_on. -/
theorem note_on_zero_velocity_is_note_off_witness :
    ((midi_message_to_json ⟨MidoType.note_on, 60, 0, 0, 0, 0, 0, 0⟩ none "t").map
        Envelope.data
      = some (MsgData.note "note_off" 60 (midi_note_to_name 60) 0 0)) ∧
    ((midi_message_to_json ⟨MidoType.note_on, 60, 100, 0, 0, 0, 0, 0⟩ none "t").map
        Envelope.data
      = some (MsgData.note "note_on" 60 (midi_note_to_name 60) 100 0)) :=
  ⟨(note_on_zero_velocity_is_note_off ⟨MidoType.note_on, 60, 0, 0, 0, 0, 0, 0⟩
      none "t" rfl).1 rfl,
   (note_on_zero_velocity_is_note_off ⟨MidoType.note_on, 60, 100, 0, 0, 0, 0, 0⟩
      none "t" rfl).2 (by norm_num)⟩

theorem delete_short_recording_deletes (fs : List String) (fp : String)
    (hfp : fp ≠ "") (hex : os_path_exists fs fp = true) :
    (delete_short_recording fs fp).2 = true := by
  have h1 : (if fp ≠ "" ∧ os_path_exists fs fp = true then (fs.erase fp, true)
      else (fs, false)) = (fs.erase fp, true) := if_pos ⟨hfp, hex⟩
  unfold delete_short_recording
  rw [h1]
  by_cases hmp3 :
      fp ≠ "" ∧ os_path_exists (fs.erase fp, true).1 (splitextRoot fp ++ ".mp3") = true
  · rw [if_pos hmp3]
  · rw [if_neg hmp3]

/-- C1: with the saved artifact present on the filesystem, a session_end for
a duration below `MIN_SESSION_DURATION_SECONDS` (= 30) carries
`deleted = true` and `filePath = null`; for a duration at or above the
threshold it carries `deleted = false` and the artifact's path. -/
theorem session_end_deleted_iff_short (fs : List String) (sid : String) (dur : ℚ)
    (nc : ℕ) (fp ts : String) (hfp : fp ≠ "") (hex : os_path_exists fs fp = true) :
    MIN_SESSION_DURATION_SECONDS = 30 ∧
    (dur < MIN_SESSION_DURATION_SECONDS →
      (create_session_end_message fs sid dur nc (some fp) ts).2.data.deleted = true ∧
      (create_session_end_message fs sid dur nc (some fp) ts).2.data.filePath = none) ∧
    (MIN_SESSION_DURATION_SECONDS ≤ dur →
      (create_session_end_message fs sid dur nc (some fp) ts).2.data.deleted = false ∧
      (create_session_end_message fs sid dur nc (some fp) ts).2.data.filePath = some fp) := by
  refine ⟨rfl, ?_, ?_⟩
  · intro hdur
    have hdel := delete_short_recording_deletes fs fp hfp hex
    simp [create_session_end_message, hdur, hfp, hdel]
  · intro hdur
    have : ¬ dur < MIN_SESSION_DURATION_SECONDS := not_lt.2 hdur
    simp [create_session_end_message, this]

/-- Evaluation of C1 on a one-file filesystem, at durations 10 and 40. -/
theorem session_end_deleted_iff_short_witness :
    ((create_session_end_message ["2025-01/x.mid"] "s" 10 2 (some "2025-01/x.mid")
        "t").2.data.deleted = true ∧
     (create_session_end_message ["2025-01/x.mid"] "s" 10 2 (some "2025-01/x.mid")
        "t").2.data.filePath = none) ∧
    ((create_session_end_message ["2025-01/x.mid"] "s" 40 2 (some "2025-01/x.mid")
        "t").2.data.deleted = false ∧
     (create_session_end_message ["2025-01/x.mid"] "s" 40 2 (some "2025-01/x.mid")
        "t").2.data.filePath = some "2025-01/x.mid") :=
  ⟨((session_end_deleted_iff_short ["2025-01/x.mid"] "s" 10 2 "2025-01/x.mid" "t"
      (by decide) (by decide)).2.1 (by norm_num [MIN_SESSION_DURATION_SECONDS])),
   ((session_end_deleted_iff_short ["2025-01/x.mid"] "s" 40 2 "2025-01/x.mid" "t"
      (by decide) (by decide)).2.2 (by norm_num [MIN_SESSION_DURATION_SECONDS]))⟩

end MidiConverter

namespace AutoMidiRecorder

open MidiConverter

/-- C2: the stored delta equals `min(int(max(0, now - last) * 960), 65535)`:
backward clock jumps clamp to zero, conversion is 960 ticks/second, and the
result is capped at 65535, hence `0 ≤ delta ≤ 65535`; while a session is
open, `process_midi_message` appends exactly that delta. -/
theorem delta_clamped_formula (now lt t : ℚ) (m : MidoMsg) (s : RecState) :
    computeDeltaTicks now (some lt) = min ⌊max 0 (now - lt) * 960⌋ 65535 ∧
    0 ≤ computeDeltaTicks now (some lt) ∧
    computeDeltaTicks now (some lt) ≤ 65535 ∧
    (s.current_session.isSome = true →
      (process_midi_message t m s).session_messages
        = s.session_messages ++ [(m, computeDeltaTicks t s.last_message_time)]) := by
  have hmain : computeDeltaTicks now (some lt) = min ⌊max 0 (now - lt) * 960⌋ 65535 := by
    rcases lt_or_le (now - lt) 0 with h | h
    · simp only [computeDeltaTicks, pyIntOfNonneg]
      rw [if_pos h, max_eq_left h.le]
    · simp only [computeDeltaTicks, pyIntOfNonneg]
      rw [if_neg (not_lt.2 h), max_eq_right h]
  refine ⟨hmain, ?_, ?_, ?_⟩
  · rw [hmain]
    refine le_min (Int.floor_nonneg.2 ?_) (by norm_num)
    have : (0 : ℚ) ≤ max 0 (now - lt) := le_max_left 0 (now - lt)
    positivity
  · rw [hmain]
    exact min_le_right _ _
  · intro hopen
    have hnone : s.current_session.isNone = false := by
      cases h : s.current_session <;> simp_all
    simp [process_midi_message, hnone]

/-- Evaluation of C2: a backward jump stores 0; a 0.2 s gap stores 192;
appending while a session is open. -/
theorem delta_clamped_formula_witness :
    computeDeltaTicks 5 (some 10) = min ⌊max 0 ((5 : ℚ) - 10) * 960⌋ 65535 ∧
    computeDeltaTicks 5 (some 10) = 0 ∧
    computeDeltaTicks (21 / 100) (some (1 / 100)) = 192 ∧
    (process_midi_message 1 ⟨MidoType.note_on, 60, 64, 0, 0, 0, 0, 0⟩
        { closed := [], current_session := some 0, session_messages := [],
          last_message_time := some 0, session_start_time := some 0 }).session_messages
      = [] ++ [(⟨MidoType.note_on, 60, 64, 0, 0, 0, 0, 0⟩,
          computeDeltaTicks 1 (some 0))] :=
  ⟨(delta_clamped_formula 5 10 1 ⟨MidoType.note_on, 60, 64, 0, 0, 0, 0, 0⟩
      initRec).1,
   by simp only [computeDeltaTicks, pyIntOfNonneg]; norm_num,
   by simp only [computeDeltaTicks, pyIntOfNonneg]; norm_num,
   (delta_clamped_formula 5 10 1 ⟨MidoType.note_on, 60, 64, 0, 0, 0, 0, 0⟩
      { closed := [], current_session := some 0, session_messages := [],
        last_message_time := some 0, session_start_time := some 0 }).2.2.2 rfl⟩

theorem allEvents_on_silence_timeout (s : RecState) :
    allEvents (on_silence_timeout s) = allEvents s := by
  unfold on_silence_timeout
  by_cases hc : s.current_session.isSome = true
  · rw [if_pos hc]
    unfold save_current_session
    by_cases he : s.session_messages.isEmpty = true ∨ s.current_session.isNone = true
    · have hmsg : s.session_messages = [] := by
        rcases he with he | he
        · exact List.isEmpty_iff.1 he
        · exfalso
          cases h : s.current_session <;> simp_all
      rw [if_pos he]
      simp [allEvents, hmsg]
    · rw [if_neg he]
      simp [allEvents]
  · rw [if_neg hc]

theorem recInv_on_silence_timeout (s : RecState) (h : RecInv s) :
    RecInv (on_silence_timeout s) := by
  unfold on_silence_timeout
  by_cases hc : s.current_session.isSome = true
  · rw [if_pos hc]
    intro _
    rfl
  · rw [if_neg hc]
    exact h

theorem allEvents_process (t : ℚ) (m : MidoMsg) (s : RecState) (h : RecInv s) :
    allEvents (process_midi_message t m s) = allEvents s ++ [m] := by
  unfold process_midi_message
  by_cases hc : s.current_session.isNone = true
  · have hmsg : s.session_messages = [] := h (Option.isNone_iff_eq_none.1 hc)
    have hsome : s.current_session.isSome = false := by
      cases hcc : s.current_session <;> simp_all
    rw [if_pos hc]
    unfold start_new_session
    rw [if_neg (by rw [hsome]; exact Bool.false_ne_true)]
    simp [allEvents, hmsg]
  · rw [if_neg hc]
    simp [allEvents]

theorem recInv_process (t : ℚ) (m : MidoMsg) (s : RecState) :
    RecInv (process_midi_message t m s) := by
  unfold process_midi_message
  by_cases hc : s.current_session.isNone = true
  · rw [if_pos hc]
    intro habs
    simp [start_new_session] at habs
  · rw [if_neg hc]
    intro habs
    simp only at habs
    rw [habs] at hc
    simp at hc

theorem allEvents_recorderStep (timeout : ℚ) (s : RecState) (tm : ℚ × MidoMsg)
    (h : RecInv s) :
    allEvents (recorderStep timeout s tm) = allEvents s ++ [tm.2] ∧
    RecInv (recorderStep timeout s tm) := by
  unfold recorderStep
  by_cases ht : timerFires timeout s tm.1 = true
  · rw [if_pos ht]
    exact ⟨by rw [allEvents_process _ _ _ (recInv_on_silence_timeout s h),
        allEvents_on_silence_timeout], recInv_process _ _ _⟩
  · rw [if_neg ht]
    exact ⟨allEvents_process _ _ _ h, recInv_process _ _ _⟩

theorem runRecorder_allEvents (timeout : ℚ) :
    ∀ (evs : List (ℚ × MidoMsg)) (s : RecState), RecInv s →
      allEvents (runRecorder timeout s evs) = allEvents s ++ evs.map Prod.snd := by
  intro evs
  induction evs with
  | nil => intro s _; simp [runRecorder]
  | cons e evs ih =>
      intro s h
      have hstep := allEvents_recorderStep timeout s e h
      show allEvents (List.foldl (recorderStep timeout) s (e :: evs)) = _
      rw [List.foldl_cons]
      have := ih (recorderStep timeout s e) hstep.2
      rw [runRecorder] at this
      rw [this, hstep.1]
      simp

end AutoMidiRecorder

namespace AutoMidiRecorder

open MidiConverter

theorem recorderStep_gap_closes (timeout : ℚ) (s : RecState) (t : ℚ) (m : MidoMsg)
    (hc : s.current_session.isSome = true) (hne : s.session_messages ≠ [])
    (ht : timerFires timeout s t = true) :
    recorderStep timeout s (t, m)
      = { closed := s.closed ++ [s.session_messages], current_session := some t,
          session_messages := [(m, 0)], last_message_time := some t,
          session_start_time := some t } := by
  have hdelta : computeDeltaTicks t (some t) = 0 := by
    simp only [computeDeltaTicks, pyIntOfNonneg]
    norm_num
  have hnotempty : s.session_messages.isEmpty = false := by
    cases h : s.session_messages
    · exact absurd h hne
    · rfl
  have hnone : s.current_session.isNone = false := by
    cases h : s.current_session <;> simp_all
  unfold recorderStep
  rw [if_pos ht]
  unfold on_silence_timeout
  rw [if_pos hc]
  unfold save_current_session
  rw [if_neg (by simp [hnotempty, hnone])]
  unfold process_midi_message
  simp [start_new_session, hdelta]

end AutoMidiRecorder

namespace AutoMidiRecorder

open MidiConverter

/-- C7: the state machine holds a single current-session slot; over any run
every accepted event lands in exactly one session, in arrival order (the
archived sessions plus the open one concatenate to the input stream); and
when the gap since the last event reaches the silence timeout, the stuck
timer closes the open session before the event opens a fresh session
containing only that event. -/
theorem session_partition (timeout : ℚ) :
    (∀ evs : List (ℚ × MidoMsg),
      allEvents (runRecorder timeout initRec evs) = evs.map Prod.snd) ∧
    (∀ (s : RecState) (t : ℚ) (m : MidoMsg),
      s.current_session.isSome = true → s.session_messages ≠ [] →
      timerFires timeout s t = true →
      (recorderStep timeout s (t, m)).closed = s.closed ++ [s.session_messages] ∧
      (recorderStep timeout s (t, m)).session_messages = [(m, 0)] ∧
      (recorderStep timeout s (t, m)).current_session = some t) := by
  constructor
  · intro evs
    have h := runRecorder_allEvents timeout evs initRec (fun _ => rfl)
    simpa [allEvents, initRec] using h
  · intro s t m hc hne ht
    rw [recorderStep_gap_closes timeout s t m hc hne ht]
    exact ⟨rfl, rfl, rfl⟩

/-- Evaluation of C7: a two-event run partitions into exactly those events;
a 40 s gap against a 30 s timeout closes the old session and opens one with
only the new event. -/
theorem session_partition_witness :
    allEvents (runRecorder 30 initRec
        [(0, ⟨MidoType.note_on, 60, 64, 0, 0, 0, 0, 0⟩),
         (1, ⟨MidoType.note_off, 60, 0, 0, 0, 0, 0, 0⟩)])
      = [(0, (⟨MidoType.note_on, 60, 64, 0, 0, 0, 0, 0⟩ : MidoMsg)),
         (1, ⟨MidoType.note_off, 60, 0, 0, 0, 0, 0, 0⟩)].map Prod.snd ∧
    ((recorderStep 30
        { closed := [], current_session := some 0,
          session_messages := [(⟨MidoType.note_on, 60, 64, 0, 0, 0, 0, 0⟩, 0)],
          last_message_time := some 0, session_start_time := some 0 }
        (40, ⟨MidoType.note_on, 62, 64, 0, 0, 0, 0, 0⟩)).closed
        = [] ++ [[((⟨MidoType.note_on, 60, 64, 0, 0, 0, 0, 0⟩ : MidoMsg), (0 : ℤ))]] ∧
     (recorderStep 30
        { closed := [], current_session := some 0,
          session_messages := [(⟨MidoType.note_on, 60, 64, 0, 0, 0, 0, 0⟩, 0)],
          last_message_time := some 0, session_start_time := some 0 }
        (40, ⟨MidoType.note_on, 62, 64, 0, 0, 0, 0, 0⟩)).session_messages
        = [((⟨MidoType.note_on, 62, 64, 0, 0, 0, 0, 0⟩ : MidoMsg), (0 : ℤ))] ∧
     (recorderStep 30
        { closed := [], current_session := some 0,
          session_messages := [(⟨MidoType.note_on, 60, 64, 0, 0, 0, 0, 0⟩, 0)],
          last_message_time := some 0, session_start_time := some 0 }
        (40, ⟨MidoType.note_on, 62, 64, 0, 0, 0, 0, 0⟩)).current_session = some 40) :=
  ⟨(session_partition 30).1 _,
   (session_partition 30).2
     { closed := [], current_session := some 0,
       session_messages := [(⟨MidoType.note_on, 60, 64, 0, 0, 0, 0, 0⟩, 0)],
       last_message_time := some 0, session_start_time := some 0 }
     40 ⟨MidoType.note_on, 62, 64, 0, 0, 0, 0, 0⟩ rfl (by simp)
     (by simp [timerFires]; norm_num)⟩

end AutoMidiRecorder

namespace MidiWsBroadcaster

theorem stop_running_false {α : Type} (s : WSB α) (f : Bool) :
    (stop s f).running = false := by
  unfold stop
  by_cases h : s.running = false
  · rw [if_pos h]
    exact h
  · rw [if_neg h]

/-- C3: `broadcast` is total and never blocks: not running (in particular
after any `stop`) returns `false` leaving the state untouched; a full queue
returns `false` and bumps the dropped counter by exactly one; otherwise the
message is enqueued and `true` returned. -/
theorem broadcast_contract (s : WSB ℕ) (m : ℕ) (f : Bool) :
    (s.running = false → broadcast s m = (s, false)) ∧
    broadcast (stop s f) m = (stop s f, false) ∧
    (s.running = true → queueFull s = true →
      (broadcast s m).2 = false ∧
      (broadcast s m).1.messages_dropped = s.messages_dropped + 1 ∧
      (broadcast s m).1.queue = s.queue ∧
      (broadcast s m).1.messages_sent = s.messages_sent) ∧
    (s.running = true → queueFull s = false →
      (broadcast s m).2 = true ∧
      (broadcast s m).1.queue = s.queue ++ [m] ∧
      (broadcast s m).1.messages_dropped = s.messages_dropped ∧
      (broadcast s m).1.messages_sent = s.messages_sent) := by
  refine ⟨?_, ?_, ?_, ?_⟩
  · intro h
    simp [broadcast, h]
  · simp [broadcast, stop_running_false s f]
  · intro hr hq
    simp [broadcast, hr, hq]
  · intro hr hq
    simp [broadcast, hr, hq]

/-- Evaluation of C3 on a stopped broadcaster, a capacity-1 full queue, and
a fresh broadcaster. -/
theorem broadcast_contract_witness :
    broadcast { init0 with running := false } 5 = ({ init0 with running := false }, false) ∧
    ((broadcast { init0 with max_queue_size := 1, queue := [7] } 5).2 = false ∧
     (broadcast { init0 with max_queue_size := 1, queue := [7] } 5).1.messages_dropped
       = { init0 with max_queue_size := 1, queue := [7] }.messages_dropped + 1 ∧
     (broadcast { init0 with max_queue_size := 1, queue := [7] } 5).1.queue
       = { init0 with max_queue_size := 1, queue := [7] }.queue ∧
     (broadcast { init0 with max_queue_size := 1, queue := [7] } 5).1.messages_sent
       = { init0 with max_queue_size := 1, queue := [7] }.messages_sent) ∧
    ((broadcast init0 5).2 = true ∧
     (broadcast init0 5).1.queue = init0.queue ++ [5] ∧
     (broadcast init0 5).1.messages_dropped = init0.messages_dropped ∧
     (broadcast init0 5).1.messages_sent = init0.messages_sent) :=
  ⟨(broadcast_contract { init0 with running := false } 5 true).1 rfl,
   (broadcast_contract { init0 with max_queue_size := 1, queue := [7] } 5 true).2.2.1
     rfl (by decide),
   (broadcast_contract init0 5 true).2.2.2 rfl (by decide)⟩

end MidiWsBroadcaster

namespace MidiWsBroadcaster

theorem min_double_pow (k : ℕ) :
    min (min (5 * (2:ℚ) ^ k) 60 * 2) 60 = min (5 * 2 ^ (k + 1)) 60 := by
  rcases le_total (5 * (2:ℚ) ^ k) 60 with h | h
  · rw [min_eq_left h, pow_succ, ← mul_assoc]
  · have hk : (2:ℚ) ^ k ≤ 2 ^ (k + 1) := by
      apply pow_le_pow_right₀ (by norm_num) (Nat.le_succ k)
    have h2 : (60:ℚ) ≤ 5 * 2 ^ (k + 1) := le_trans h (by nlinarith)
    rw [min_eq_right h, min_eq_right h2, min_eq_right (by norm_num : (60:ℚ) ≤ 60 * 2)]

theorem runConn_failures (n : ℕ) : ∀ k : ℕ,
    runConn 5 60 (min (5 * (2:ℚ) ^ k) 60) (List.replicate n ConnEvent.failure)
      = (List.range n).map fun i => min (5 * (2:ℚ) ^ (k + i)) 60 := by
  induction n with
  | zero => intro k; simp [runConn]
  | succ n ih =>
      intro k
      rw [List.replicate_succ]
      show (min (5 * (2:ℚ) ^ k) 60)
          :: runConn 5 60 (min (min (5 * (2:ℚ) ^ k) 60 * 2) 60)
              (List.replicate n ConnEvent.failure) = _
      rw [min_double_pow k, ih (k + 1), List.range_succ_eq_map]
      simp only [List.map_cons, List.map_map]
      congr 1
      refine List.map_congr_left fun a _ => ?_
      simp only [Function.comp_apply, Nat.succ_eq_add_one]
      have hik : k + 1 + a = k + (a + 1) := by omega
      rw [hik]

/-- C4: with `reconnect_base = 5` and `reconnect_max = 60`, the delay waited
before the n-th consecutive failed reconnect is `min(5·2^n, 60)`, i.e. the
sequence 5, 10, 20, 40, 60, 60, …, and a successful connection resets the
next failure's delay to the base 5. -/
theorem reconnect_backoff_sequence :
    (∀ n : ℕ, runConn 5 60 5 (List.replicate n ConnEvent.failure)
        = (List.range n).map fun k => min (5 * (2:ℚ) ^ k) 60) ∧
    runConn 5 60 5 (List.replicate 6 ConnEvent.failure)
      = [5, 10, 20, 40, 60, 60] ∧
    (∀ (d : ℚ) (es : List ConnEvent),
      (runConn 5 60 d (ConnEvent.success :: ConnEvent.failure :: es)).head? = some 5) := by
  have h1 : ∀ n : ℕ, runConn 5 60 5 (List.replicate n ConnEvent.failure)
      = (List.range n).map fun k => min (5 * (2:ℚ) ^ k) 60 := by
    intro n
    have h0 := runConn_failures n 0
    simp only [pow_zero, mul_one, Nat.zero_add] at h0
    rw [min_eq_left (by norm_num : (5:ℚ) ≤ 60)] at h0
    exact h0
  refine ⟨h1, ?_, ?_⟩
  · rw [h1 6]
    norm_num [List.range_succ, min_def]
  · intro d es
    simp [runConn]

end MidiWsBroadcaster

namespace MidiWsBroadcaster

theorem sysStep_stopped (s : WSB ℕ) (e : Evt ℕ) (h : s.running = false) :
    sysStep s e = s := by
  cases e with
  | bcast m => simp [sysStep, broadcast, h]
  | batch oracle => simp [sysStep, h]
  | stopEvt f => simp [sysStep, stop, h]

theorem runSys_stopped (s : WSB ℕ) (h : s.running = false) :
    ∀ evs : List (Evt ℕ), runSys s evs = s := by
  intro evs
  induction evs with
  | nil => rfl
  | cons e es ih =>
      rw [show runSys s (e :: es) = runSys (sysStep s e) es from rfl,
        sysStep_stopped s e h]
      exact ih

theorem frozen_of_stopped (s : WSB ℕ) (h : s.running = false) : countersFrozen s := by
  intro evs
  rw [runSys_stopped s h evs]
  exact ⟨rfl, rfl⟩

/-- C5: `stop(flush=True)` clears `_running` and the stop event before the
join, so with 100 messages queued the worker loop exits without draining:
the queue keeps all 100 messages, the dropped and sent counters are
untouched (nothing is "dropped and counted"), and once stopped the counters
are frozen forever (no further send is attempted) with `_connected` false. -/
theorem stop_flush_leaves_queue_uncounted :
    (stop queued100 true).queue.length = 100 ∧
    (stop queued100 true).messages_dropped = queued100.messages_dropped ∧
    (stop queued100 true).messages_sent = queued100.messages_sent ∧
    (stop queued100 true).running = false ∧
    (stop queued100 true).connected = false ∧
    countersFrozen (stop queued100 true) :=
  ⟨by decide, by decide, by decide, by decide, by decide,
   frozen_of_stopped _ (by decide)⟩

theorem sendBatch_conserves {α : Type} :
    ∀ (fuel : ℕ) (s : WSB α) (oracle : List Bool),
      (sendBatch s oracle fuel).messages_sent + (sendBatch s oracle fuel).messages_dropped
          + (sendBatch s oracle fuel).queue.length
        = s.messages_sent + s.messages_dropped + s.queue.length := by
  intro fuel
  induction fuel with
  | zero => intro s oracle; rfl
  | succ fuel ih =>
      intro s oracle
      obtain ⟨mq, run, se, co, q, ms, md, rc, hs, hr⟩ := s
      cases q with
      | nil => rfl
      | cons m rest =>
          simp only [sendBatch]
          by_cases ho : oracle.headD true = true
          · rw [if_pos ho]
            have h2 := ih ⟨mq, run, se, co, rest, ms + 1, md, rc, hs, hr⟩ oracle.tail
            simp only at h2 ⊢
            rw [h2]
            simp
            omega
          · rw [if_neg ho]
            by_cases hf : 0 < mq ∧ mq ≤ rest.length
            · rw [if_pos hf]
              simp
              omega
            · rw [if_neg hf]
              simp

theorem sysStep_conserves {α : Type} (s : WSB α) (e : Evt α) :
    (sysStep s e).messages_sent + (sysStep s e).messages_dropped
        + (sysStep s e).queue.length
      = s.messages_sent + s.messages_dropped + s.queue.length
        + evtAccepted s e + evtRejected s e := by
  cases e with
  | bcast m =>
      by_cases hr : s.running = false
      · simp [sysStep, broadcast, evtAccepted, evtRejected, hr]
      · have hrt : s.running = true := by
          cases h : s.running
          · exact absurd h hr
          · rfl
        by_cases hq : queueFull s = true
        · simp [sysStep, broadcast, evtAccepted, evtRejected, hrt, hq]
          omega
        · simp only [Bool.not_eq_true] at hq
          simp [sysStep, broadcast, evtAccepted, evtRejected, hrt, hq]
          omega
  | batch oracle =>
      by_cases hg : (s.running && !s.stop_event) = true
      · simp [sysStep, evtAccepted, evtRejected, hg, sendBatch_conserves]
      · simp only [Bool.not_eq_true] at hg
        simp [sysStep, evtAccepted, evtRejected, hg]
  | stopEvt f =>
      by_cases hr : s.running = false
      · simp [sysStep, stop, evtAccepted, evtRejected, hr]
      · simp [sysStep, stop, evtAccepted, evtRejected, hr]

/-- C6 (amended): along every run, `messages_sent + messages_dropped` plus
the messages still sitting in the Delivery Queue equals the number of
accepted messages plus the number of enqueue-time rejections; accepted
messages still queued are in neither counter (and stay so after `stop`). -/
theorem queue_accounting_conservation :
    ∀ (evs : List (Evt ℕ)) (s : WSB ℕ),
      (runSys s evs).messages_sent + (runSys s evs).messages_dropped
          + (runSys s evs).queue.length
        = s.messages_sent + s.messages_dropped + s.queue.length
          + acceptedCount s evs + enqueueRejectedCount s evs := by
  intro evs
  induction evs with
  | nil => intro s; simp [runSys, acceptedCount, enqueueRejectedCount]
  | cons e es ih =>
      intro s
      rw [show runSys s (e :: es) = runSys (sysStep s e) es from rfl]
      rw [ih (sysStep s e), sysStep_conserves s e]
      rw [show acceptedCount s (e :: es)
            = evtAccepted s e + acceptedCount (sysStep s e) es from rfl]
      rw [show enqueueRejectedCount s (e :: es)
            = evtRejected s e + enqueueRejectedCount (sysStep s e) es from rfl]
      omega

/-- C6 counterexample: one message is accepted, the broadcaster is stopped,
and from then on `messages_sent + messages_dropped = 0 ≠ 1` forever: the
accepted message is never accounted for in either counter. -/
theorem accounting_counterexample :
    acceptedCount init0 trace1 = 1 ∧
    (runSys init0 trace1).messages_sent = 0 ∧
    (runSys init0 trace1).messages_dropped = 0 ∧
    (runSys init0 trace1).queue.length = 1 ∧
    countersFrozen (runSys init0 trace1) :=
  ⟨by decide, by decide, by decide, by decide, frozen_of_stopped _ (by decide)⟩

/-- C8 counterexample: a frame that is valid JSON but not an object raises
`AttributeError` past the inner handler and ends `_receive_loop`, so the
pong that follows it is never counted: one pong-shaped frame arrives, yet
`heartbeats_received` stays 0 — the malformed frame was not merely ignored. -/
theorem receive_nonobject_kills_loop :
    countPongs framesEx = 1 ∧
    (receive_loop init0 framesEx).heartbeats_received = 0 := by
  constructor
  · decide
  · decide

/-- C8 (amended): heartbeat pings have exactly the shape
`{source: piano, topic: heartbeat, type: ping, timestamp: now}` and each
successful send increments `heartbeats_sent` by one; a JSON-object frame
increments `heartbeats_received` exactly when it is a heartbeat/pong and
otherwise changes nothing; a non-JSON frame is skipped with no counter
change; a JSON non-object frame changes no counter but terminates the
receive loop. -/
theorem heartbeat_contract (s : WSB ℕ) (now : ℚ) (topic ty : Option String) :
    ((heartbeat_msg now).source = "piano" ∧ (heartbeat_msg now).topic = "heartbeat" ∧
     (heartbeat_msg now).type = "ping" ∧ (heartbeat_msg now).timestamp = now) ∧
    ((send_heartbeat s now).1.heartbeats_sent = s.heartbeats_sent + 1 ∧
     (send_heartbeat s now).1.heartbeats_received = s.heartbeats_received ∧
     (send_heartbeat s now).2 = heartbeat_msg now) ∧
    ((receive_one s (Incoming.jsonObject topic ty)).1.heartbeats_received
        = s.heartbeats_received
          + (if topic = some "heartbeat" ∧ ty = some "pong" then 1 else 0) ∧
     (receive_one s (Incoming.jsonObject topic ty)).1.messages_sent = s.messages_sent ∧
     (receive_one s (Incoming.jsonObject topic ty)).1.messages_dropped
        = s.messages_dropped ∧
     (receive_one s (Incoming.jsonObject topic ty)).1.heartbeats_sent
        = s.heartbeats_sent ∧
     (receive_one s (Incoming.jsonObject topic ty)).2 = true) ∧
    receive_one s Incoming.notJson = (s, true) ∧
    receive_one s Incoming.jsonNonObject = (s, false) := by
  refine ⟨⟨rfl, rfl, rfl, rfl⟩, ⟨rfl, rfl, rfl⟩, ?_, rfl, rfl⟩
  by_cases h : topic = some "heartbeat" ∧ ty = some "pong"
  · simp [receive_one, h]
  · simp [receive_one, h]

end MidiWsBroadcaster
